import Mathlib

/-!
Directory (LDAP) integration of Documize Community: package `domain/auth/ldap`.

A shallow embedding of `ldap.go` and of the `Preview` handler of `endpoint.go`,
followed by theorems about user extraction, user conversion, authentication,
group expansion and the preview cap.

Conventions of the embedding

* A Go `string` is a Lean `String`; `len(s)` is the byte length `String.utf8ByteSize`.
* A Go `error` is `GoError = Option Error`; `none` is `nil`.
* A Go function with named results returns a structure with one field per result.
* The directory server is an oracle `Server σ` over an arbitrary state `σ`; every call
  on the network is threaded through a `Conn σ`, which also records the calls issued, in
  order, with their answers.
* Calls that only print or log (`fmt.Println`, `h.Runtime.Log`) are left out.
* The Unicode case tables of the Go release are a parameter `lowerCase`, the lookup
  `unicode.ToLower` makes for a rune above `unicode.MaxASCII`.
-/

set_option autoImplicit false

namespace Ldap

/-! ## Go values -/

/-- A non-nil Go `error`: a base error, or an error wrapped with a message by
`errors.Wrap`. -/
inductive Error where
  | mk (msg : String)
  | wrapped (cause : Error) (msg : String)
  deriving DecidableEq, Repr

/-- A Go `error` value; `none` is `nil`. -/
abbrev GoError := Option Error

/-- `errors.Wrap` of `github.com/pkg/errors`: "If err is nil, Wrap returns nil." -/
def errors.Wrap (err : GoError) (message : String) : GoError :=
  match err with
  | none => none
  | some e => some (Error.wrapped e message)

/-- Go `len` of a string: its number of bytes. -/
def len (s : String) : Nat := s.utf8ByteSize

/-- `unicode.MaxASCII`. -/
def unicode.MaxASCII : Nat := 127

/-- `unicode.ToLower`. Up to `MaxASCII` the letters `A`..`Z` are mapped to `a`..`z` and every
other rune is returned as it is; a rune above `MaxASCII` is looked up in the Unicode case
tables. `lowerCase` stands for that lookup, `unicode.To(unicode.LowerCase, r)`: the tables
belong to the Go release the program is built with, not to this repository. -/
def unicode.ToLower (lowerCase : Char → Char) (r : Char) : Char :=
  if r.toNat ≤ unicode.MaxASCII then r.toLower else lowerCase r

/-- `strings.ToLower`, that is `strings.Map(unicode.ToLower, s)`: every rune is replaced by its
image under `unicode.ToLower`. The shortcut Go takes for a string of ASCII runes computes the
same string. -/
def strings.ToLower (lowerCase : Char → Char) (s : String) : String :=
  ⟨s.data.map (unicode.ToLower lowerCase)⟩

/-- Pieces of a rune list cut at every comma; there is always at least one piece. -/
def splitComma : List Char → List (List Char)
  | [] => [[]]
  | ch :: rest =>
    if ch = ',' then [] :: splitComma rest
    else
      match splitComma rest with
      | [] => [[ch]]
      | p :: ps => (ch :: p) :: ps

/-- `strings.Split(s, ",")`. -/
def strings.SplitComma (s : String) : List String := (splitComma s.data).map String.mk

/-! ## Data model -/

/-- `lm.LDAPConfig` (package `model/auth`), with the fields the package `ldap` reads. -/
structure LDAPConfig where
  ServerHost : String
  ServerPort : Int
  EncryptionType : String
  BaseDN : String
  BindDN : String
  BindPassword : String
  UserFilter : String
  GroupFilter : String
  DefaultPermissionAddSpace : Bool
  AttributeUserRDN : String
  AttributeUserFirstname : String
  AttributeUserLastname : String
  AttributeUserEmail : String
  AttributeUserDisplayName : String
  AttributeGroupMember : String
  deriving DecidableEq, Repr

/-- Modelled from the spec: the constant `lm.EncryptionTypeStartTLS` of package `model/auth`,
the encryption mode the spec writes `starttls`; `Sync` (endpoint.go:179) compares
`c.EncryptionType` with the same literal. -/
def EncryptionTypeStartTLS : String := "starttls"

/-- `lm.LDAPUser`. -/
structure LDAPUser where
  RemoteID : String
  CN : String
  Email : String
  Firstname : String
  Lastname : String
  deriving DecidableEq, Repr

/-- `user.User` (package `model/user`), with the fields `convertUsers` writes. -/
structure User where
  Firstname : String
  Lastname : String
  Email : String
  Initials : String
  Active : Bool
  Editor : Bool
  Admin : Bool
  ViewUsers : Bool
  Analytics : Bool
  Global : Bool
  deriving DecidableEq, Repr

/-- `ld.EntryAttribute`: an attribute name with its values. -/
structure EntryAttribute where
  Name : String
  Values : List String
  deriving DecidableEq, Repr

/-- `ld.Entry`: a directory entry. -/
structure Entry where
  DN : String
  Attributes : List EntryAttribute
  deriving DecidableEq, Repr

/-- `(*ld.Entry).GetAttributeValues`: the values of the first attribute of that name, or an
empty list. -/
def Entry.GetAttributeValues (e : Entry) (name : String) : List String :=
  match e.Attributes.find? (fun attr => attr.Name == name) with
  | some attr => attr.Values
  | none => []

/-- `(*ld.Entry).GetAttributeValue`: the first value of that attribute, or `""`. -/
def Entry.GetAttributeValue (e : Entry) (name : String) : String :=
  match e.GetAttributeValues name with
  | [] => ""
  | v :: _ => v

/-! ## `extractUser` and `convertUsers` -/

/-- `extractUser` (ldap.go:202). The conditional on the display name has an empty body in the
source and is kept as such. -/
def extractUser (lowerCase : Char → Char) (c : LDAPConfig) (e : Entry) : LDAPUser :=
  let u : LDAPUser :=
    { Firstname := e.GetAttributeValue c.AttributeUserFirstname
      Lastname := e.GetAttributeValue c.AttributeUserLastname
      Email := strings.ToLower lowerCase (e.GetAttributeValue c.AttributeUserEmail)
      RemoteID := e.GetAttributeValue c.AttributeUserRDN
      CN := e.GetAttributeValue "cn" }
  let u : LDAPUser :=
    if (len u.Firstname = 0 ∨ len u.Firstname = 0) ∧
        len (e.GetAttributeValue c.AttributeUserDisplayName) > 0 then u else u
  let u : LDAPUser := if len u.Firstname = 0 then { u with Firstname := "Empty" } else u
  let u : LDAPUser := if len u.Lastname = 0 then { u with Lastname := "Empty" } else u
  u

/-- The inner loop of `convertUsers` (ldap.go:229-234): the value of `add` when the loop over
the users collected so far ends, `false` as soon as one of them carries the same non-empty
email. -/
def dupeScan (i : LDAPUser) : List User → Bool
  | [] => true
  | j :: rest => if len j.Email > 0 ∧ i.Email = j.Email then false else dupeScan i rest

set_option linter.unusedVariables false in
/-- One iteration of the outer loop of `convertUsers` (ldap.go:227-252). The result of the
inner loop is assigned to `add` and then overwritten at ldap.go:236. -/
def convertStep (MakeInitials : String → String → String) (c : LDAPConfig)
    (du : List User) (i : LDAPUser) : List User :=
  let add := dupeScan i du
  let add := decide (len i.Email > 0)
  if add then
    du ++ [{ Editor := c.DefaultPermissionAddSpace
             Active := true
             Email := i.Email
             ViewUsers := false
             Analytics := false
             Admin := false
             Global := false
             Firstname := i.Firstname
             Lastname := i.Lastname
             Initials := MakeInitials i.Firstname i.Lastname }]
  else du

/-- `convertUsers` (ldap.go:226). `MakeInitials` stands for `stringutil.MakeInitials`, which
is outside this package. -/
def convertUsers (MakeInitials : String → String → String) (c : LDAPConfig)
    (lu : List LDAPUser) : List User :=
  lu.foldl (convertStep MakeInitials c) []

/-- The record `convertUsers` builds for a directory user (ldap.go:238-248). -/
def toUser (MakeInitials : String → String → String) (c : LDAPConfig) (i : LDAPUser) : User :=
  { Editor := c.DefaultPermissionAddSpace
    Active := true
    Email := i.Email
    ViewUsers := false
    Analytics := false
    Admin := false
    Global := false
    Firstname := i.Firstname
    Lastname := i.Lastname
    Initials := MakeInitials i.Firstname i.Lastname }

/-! ## The directory server and the connection -/

/-- `ld.SearchRequest`, as built by `ld.NewSearchRequest`. -/
structure SearchRequest where
  BaseDN : String
  Scope : Nat
  DerefAliases : Nat
  SizeLimit : Nat
  TimeLimit : Nat
  TypesOnly : Bool
  Filter : String
  Attributes : List String
  Controls : List String
  deriving DecidableEq, Repr

/-- `ld.ScopeWholeSubtree`. -/
def ScopeWholeSubtree : Nat := 2

/-- `ld.NeverDerefAliases`. -/
def NeverDerefAliases : Nat := 0

/-- `ld.NewSearchRequest`. -/
def NewSearchRequest (BaseDN : String) (Scope DerefAliases SizeLimit TimeLimit : Nat)
    (TypesOnly : Bool) (Filter : String) (Attributes : List String)
    (Controls : List String) : SearchRequest :=
  ⟨BaseDN, Scope, DerefAliases, SizeLimit, TimeLimit, TypesOnly, Filter, Attributes, Controls⟩

/-- `ld.SearchResult`; only `Entries` is read by this package. -/
structure SearchResult where
  Entries : List Entry
  deriving DecidableEq, Repr

/-- The directory server and the network as an oracle over a state `σ`: each call answers and
moves the state. `Bind` and `StartTLS` answer with a Go error (`none` on success), `Search`
with a result or an error. -/
structure Server (σ : Type) where
  Dial : σ → String → String → GoError × σ
  StartTLS : σ → Bool → GoError × σ
  Bind : σ → String → String → GoError × σ
  Search : σ → SearchRequest → Except Error SearchResult × σ
  Close : σ → σ

/-- A call issued on the network, with its answer. -/
inductive Event where
  | dial (network address : String) (res : GoError)
  | startTLS (insecureSkipVerify : Bool) (res : GoError)
  | bind (username password : String) (res : GoError)
  | search (req : SearchRequest) (res : Except Error SearchResult)
  | close

/-- The oracle state as seen through the one live connection `*ld.Conn`, with the calls issued
so far, oldest first. -/
structure Conn (σ : Type) where
  state : σ
  log : List Event

variable {σ : Type}

/-- `ld.Dial`. -/
def Conn.Dial (srv : Server σ) (l : Conn σ) (network address : String) : GoError × Conn σ :=
  ((srv.Dial l.state network address).1,
   ⟨(srv.Dial l.state network address).2,
    l.log ++ [Event.dial network address (srv.Dial l.state network address).1]⟩)

/-- `(*ld.Conn).StartTLS`. -/
def Conn.StartTLS (srv : Server σ) (l : Conn σ) (insecureSkipVerify : Bool) :
    GoError × Conn σ :=
  ((srv.StartTLS l.state insecureSkipVerify).1,
   ⟨(srv.StartTLS l.state insecureSkipVerify).2,
    l.log ++ [Event.startTLS insecureSkipVerify (srv.StartTLS l.state insecureSkipVerify).1]⟩)

/-- `(*ld.Conn).Bind`. -/
def Conn.Bind (srv : Server σ) (l : Conn σ) (username password : String) :
    GoError × Conn σ :=
  ((srv.Bind l.state username password).1,
   ⟨(srv.Bind l.state username password).2,
    l.log ++ [Event.bind username password (srv.Bind l.state username password).1]⟩)

/-- `(*ld.Conn).Search`. -/
def Conn.Search (srv : Server σ) (l : Conn σ) (req : SearchRequest) :
    Except Error SearchResult × Conn σ :=
  ((srv.Search l.state req).1,
   ⟨(srv.Search l.state req).2, l.log ++ [Event.search req (srv.Search l.state req).1]⟩)

/-- `(*ld.Conn).Close`. -/
def Conn.Close (srv : Server σ) (l : Conn σ) : Conn σ :=
  ⟨srv.Close l.state, l.log ++ [Event.close]⟩

/-- Whether a logged call is a bind. -/
def Event.isBind : Event → Bool
  | Event.bind _ _ _ => true
  | _ => false

/-- The answers of the searches in a log, in the order issued. -/
def searchAnswers : List Event → List (Except Error SearchResult)
  | [] => []
  | Event.search _ res :: rest => res :: searchAnswers rest
  | _ :: rest => searchAnswers rest

/-- The requests of the searches in a log, in the order issued. -/
def searchRequests : List Event → List SearchRequest
  | [] => []
  | Event.search req _ :: rest => req :: searchRequests rest
  | _ :: rest => searchRequests rest

/-! ## `connect` and `authenticate` -/

/-- Results `(l, err)` of `connect`. -/
structure ConnectResult (σ : Type) where
  l : Conn σ
  err : GoError

/-- `connect` (ldap.go:27). -/
def connect (srv : Server σ) (w : Conn σ) (c : LDAPConfig) : ConnectResult σ :=
  let address := c.ServerHost ++ ":" ++ toString c.ServerPort
  match Conn.Dial srv w "tcp" address with
  | (some e, l) => ⟨l, errors.Wrap (some e) "unable to dial LDAP server"⟩
  | (none, l) =>
    if c.EncryptionType = EncryptionTypeStartTLS then
      match Conn.StartTLS srv l true with
      | (some e, l) => ⟨l, errors.Wrap (some e) "unable to startTLS with LDAP server"⟩
      | (none, l) => ⟨l, none⟩
    else ⟨l, none⟩

/-- Results `(success, err)` of `authenticate`, with the connection after the call. -/
structure AuthResult (σ : Type) where
  success : Bool
  err : GoError
  l : Conn σ

/-- The search request `authenticate` builds (ldap.go:53-62). -/
def authSearchRequest (GetUserFilterAttributes : LDAPConfig → List String) (c : LDAPConfig)
    (username : String) : SearchRequest :=
  let userAttrs := GetUserFilterAttributes c
  let filter := "(" ++ c.AttributeUserRDN ++ "=" ++ username ++ ")"
  NewSearchRequest c.BaseDN ScopeWholeSubtree NeverDerefAliases 0 0 false filter userAttrs []

/-- `authenticate` (ldap.go:51). `GetUserFilterAttributes` stands for the method of
`lm.LDAPConfig` of that name. The result of `errors.Wrap` at ldap.go:66 is discarded in the
source, so the bind error is returned as it is; at ldap.go:77 and ldap.go:81 `errors.Wrap` is
applied to `err`, which is `nil` after a successful search. -/
def authenticate (srv : Server σ) (GetUserFilterAttributes : LDAPConfig → List String)
    (l : Conn σ) (c : LDAPConfig) (username pwd : String) : AuthResult σ :=
  let searchRequest := authSearchRequest GetUserFilterAttributes c username
  match Conn.Bind srv l c.BindDN c.BindPassword with
  | (some e, l) => ⟨false, some e, l⟩
  | (none, l) =>
    match Conn.Search srv l searchRequest with
    | (Except.error e, l) =>
      ⟨false, errors.Wrap (some e) "unable to execute LDAP search during authentication", l⟩
    | (Except.ok sr, l) =>
      let err : GoError := none
      if h0 : sr.Entries.length = 0 then
        ⟨false, errors.Wrap err "user not found during LDAP authentication", l⟩
      else if sr.Entries.length ≠ 1 then
        ⟨false, errors.Wrap err "dupe users found during LDAP authentication", l⟩
      else
        let userdn := (sr.Entries.get ⟨0, Nat.pos_of_ne_zero h0⟩).DN
        match Conn.Bind srv l userdn pwd with
        | (some _, l) => ⟨false, none, l⟩
        | (none, l) => ⟨true, none, l⟩

/-! ## The two search modes -/

/-- Results `(u, err)` of `executeUserFilter` and `executeGroupFilter`, with the network after
the call. -/
structure FilterResult (σ : Type) where
  u : List LDAPUser
  err : GoError
  w : Conn σ

/-- The loop `for _, e := range entries { u = append(u, extractUser(c, e)) }`
(ldap.go:126-128 and ldap.go:191-193). -/
def appendExtracted (lowerCase : Char → Char) (c : LDAPConfig) (u : List LDAPUser)
    (entries : List Entry) :
    List LDAPUser :=
  entries.foldl (fun u e => u ++ [extractUser lowerCase c e]) u

/-- `executeUserFilter` (ldap.go:97). The results of `errors.Wrap` at ldap.go:108 and
ldap.go:122 are discarded in the source. `defer l.Close()` runs on every return after a
successful `connect`. -/
def executeUserFilter (lowerCase : Char → Char) (srv : Server σ)
    (GetUserFilterAttributes : LDAPConfig → List String)
    (w : Conn σ) (c : LDAPConfig) : FilterResult σ :=
  match connect srv w c with
  | ⟨l, some e⟩ => ⟨[], errors.Wrap (some e) "unable to dial LDAP server", l⟩
  | ⟨l, none⟩ =>
    match Conn.Bind srv l c.BindDN c.BindPassword with
    | (some e, l) => ⟨[], some e, Conn.Close srv l⟩
    | (none, l) =>
      let searchRequest := NewSearchRequest c.BaseDN ScopeWholeSubtree NeverDerefAliases 0 0
        false c.UserFilter (GetUserFilterAttributes c) []
      match Conn.Search srv l searchRequest with
      | (Except.error e, l) => ⟨[], some e, Conn.Close srv l⟩
      | (Except.ok sr, l) => ⟨appendExtracted lowerCase c [] sr.Entries, none, Conn.Close srv l⟩

/-- The search request for one member of a group (ldap.go:175-183); `part0` is `parts[0]`. -/
def memberSearchRequest (GetUserFilterAttributes : LDAPConfig → List String) (c : LDAPConfig)
    (part0 : String) : SearchRequest :=
  let filter := "(" ++ part0 ++ ")"
  NewSearchRequest c.BaseDN ScopeWholeSubtree NeverDerefAliases 0 0 false filter
    (GetUserFilterAttributes c) []

/-- The loop over the members of one group (ldap.go:169-195). The `err` assigned at
ldap.go:185 is a new variable of the loop body, not the result `err` of the function. -/
def memberLoop (lowerCase : Char → Char) (srv : Server σ)
    (GetUserFilterAttributes : LDAPConfig → List String)
    (c : LDAPConfig) : List String → Conn σ → List LDAPUser → Conn σ × List LDAPUser
  | [], l, u => (l, u)
  | entry :: rest, l, u =>
    match strings.SplitComma entry with
    | [] => memberLoop lowerCase srv GetUserFilterAttributes c rest l u
    | part0 :: _ =>
      let usr := memberSearchRequest GetUserFilterAttributes c part0
      match Conn.Search srv l usr with
      | (Except.error _, l) => memberLoop lowerCase srv GetUserFilterAttributes c rest l u
      | (Except.ok ue, l) =>
        if ue.Entries.length > 0 then
          memberLoop lowerCase srv GetUserFilterAttributes c rest l (appendExtracted lowerCase c u ue.Entries)
        else memberLoop lowerCase srv GetUserFilterAttributes c rest l u

/-- The loop over the groups found (ldap.go:163-196). -/
def groupLoop (lowerCase : Char → Char) (srv : Server σ)
    (GetUserFilterAttributes : LDAPConfig → List String)
    (c : LDAPConfig) : List Entry → Conn σ → List LDAPUser → Conn σ × List LDAPUser
  | [], l, u => (l, u)
  | g :: rest, l, u =>
    let rawMembers := g.GetAttributeValues c.AttributeGroupMember
    if rawMembers.length = 0 then groupLoop lowerCase srv GetUserFilterAttributes c rest l u
    else
      groupLoop lowerCase srv GetUserFilterAttributes c rest
        (memberLoop lowerCase srv GetUserFilterAttributes c rawMembers l u).1
        (memberLoop lowerCase srv GetUserFilterAttributes c rawMembers l u).2

/-- The search request for groups (ldap.go:149-155). -/
def groupSearchRequest (GetGroupFilterAttributes : LDAPConfig → List String)
    (c : LDAPConfig) : SearchRequest :=
  NewSearchRequest c.BaseDN ScopeWholeSubtree NeverDerefAliases 0 0 false c.GroupFilter
    (GetGroupFilterAttributes c) []

/-- `executeGroupFilter` (ldap.go:134). `GetGroupFilterAttributes` stands for the method of
`lm.LDAPConfig` of that name. -/
def executeGroupFilter (lowerCase : Char → Char) (srv : Server σ)
    (GetUserFilterAttributes GetGroupFilterAttributes : LDAPConfig → List String)
    (w : Conn σ) (c : LDAPConfig) : FilterResult σ :=
  match connect srv w c with
  | ⟨l, some e⟩ => ⟨[], errors.Wrap (some e) "unable to dial LDAP server", l⟩
  | ⟨l, none⟩ =>
    match Conn.Bind srv l c.BindDN c.BindPassword with
    | (some e, l) => ⟨[], some e, Conn.Close srv l⟩
    | (none, l) =>
      let searchRequest := groupSearchRequest GetGroupFilterAttributes c
      match Conn.Search srv l searchRequest with
      | (Except.error e, l) => ⟨[], some e, Conn.Close srv l⟩
      | (Except.ok sr, l) =>
        ⟨(groupLoop lowerCase srv GetUserFilterAttributes c sr.Entries l []).2, none,
         Conn.Close srv (groupLoop lowerCase srv GetUserFilterAttributes c sr.Entries l []).1⟩

/-! ## `fetchUsers` and `Preview` -/

/-- Results `(du, err)` of `fetchUsers`, with the network after the call. -/
structure FetchResult (σ : Type) where
  du : List User
  err : GoError
  w : Conn σ

/-- `fetchUsers` (ldap.go:258). -/
def fetchUsers (lowerCase : Char → Char) (srv : Server σ)
    (GetUserFilterAttributes GetGroupFilterAttributes : LDAPConfig → List String)
    (MakeInitials : String → String → String) (w : Conn σ) (c : LDAPConfig) :
    FetchResult σ :=
  match executeUserFilter lowerCase srv GetUserFilterAttributes w c with
  | ⟨_, some e, w⟩ => ⟨[], errors.Wrap (some e) "unable to execute user filter", w⟩
  | ⟨e1, none, w⟩ =>
    match executeGroupFilter lowerCase srv GetUserFilterAttributes GetGroupFilterAttributes w c with
    | ⟨_, some e, w⟩ => ⟨[], errors.Wrap (some e) "unable to execute group filter", w⟩
    | ⟨e2, none, w⟩ =>
      let e3 : List LDAPUser := []
      let e3 := e3 ++ e1
      let e3 := e3 ++ e2
      ⟨convertUsers MakeInitials c e3, none, w⟩

/-- The local `result` of `Preview` (endpoint.go:56-60), written as JSON to the caller. -/
structure PreviewResult where
  Message : String
  IsError : Bool
  Users : List User
  deriving DecidableEq, Repr

/-- What `Preview` writes to the response. -/
inductive Response where
  | forbidden
  | json (result : PreviewResult)
  deriving DecidableEq, Repr

/-- `(*Handler).Preview` (endpoint.go:47). `Administrator` is `ctx.Administrator`, `body` the
outcome of `ioutil.ReadAll(r.Body)` and `Unmarshal` stands for `json.Unmarshal` into an
`lm.LDAPConfig`; the three belong to the HTTP layer. -/
def Preview (lowerCase : Char → Char) (srv : Server σ)
    (GetUserFilterAttributes GetGroupFilterAttributes : LDAPConfig → List String)
    (MakeInitials : String → String → String)
    (Unmarshal : String → Except Error LDAPConfig)
    (Administrator : Bool) (body : Except Error String) (w : Conn σ) :
    Response × Conn σ :=
  if ¬ Administrator then (Response.forbidden, w)
  else
    match body with
    | Except.error _ =>
      (Response.json ⟨"Error: unable read request body", true, []⟩, w)
    | Except.ok body =>
      match Unmarshal body with
      | Except.error _ =>
        (Response.json ⟨"Error: unable read LDAP configuration payload", true, []⟩, w)
      | Except.ok c =>
        match fetchUsers lowerCase srv GetUserFilterAttributes GetGroupFilterAttributes MakeInitials
            w c with
        | ⟨_, some _, w⟩ =>
          (Response.json ⟨"Error: unable fetch users from LDAP", true, []⟩, w)
        | ⟨users, none, w⟩ =>
          let Message := "Sync\x27ed with LDAP, found " ++ toString users.length ++ " users"
          if users.length > 100 then
            (Response.json ⟨Message, false, users.take 100⟩, w)
          else (Response.json ⟨Message, false, users⟩, w)

/-! ## Group expansion as the specification words it -/

/-- The first comma-delimited component of a member DN: the runes before the first comma. -/
def firstComponent (memberDN : String) : String :=
  String.mk (memberDN.data.takeWhile (fun ch => decide (ch ≠ ',')))

/-- The member DNs of the groups found, in group order then member order. -/
def memberDNs (c : LDAPConfig) (groups : List Entry) : List String :=
  groups.flatMap (fun g => g.GetAttributeValues c.AttributeGroupMember)

/-- The secondary search requests of a group expansion, one per member DN. -/
def memberRequests (GetUserFilterAttributes : LDAPConfig → List String) (c : LDAPConfig)
    (groups : List Entry) : List SearchRequest :=
  (memberDNs c groups).map
    (fun m => memberSearchRequest GetUserFilterAttributes c (firstComponent m))

/-- What one member search contributes: the `extractUser` images of its entries when it
succeeded, nothing when it failed. -/
def usersOfAnswer (lowerCase : Char → Char) (c : LDAPConfig) :
    Except Error SearchResult → List LDAPUser
  | Except.error _ => []
  | Except.ok sr => sr.Entries.map (extractUser lowerCase c)

/-- The answers of the oracle to a list of search requests issued one after the other from
state `s`, with the state reached. -/
def runSearches (srv : Server σ) : σ → List SearchRequest →
    List (Except Error SearchResult) × σ
  | s, [] => ([], s)
  | s, req :: rest =>
    ((srv.Search s req).1 :: (runSearches srv (srv.Search s req).2 rest).1,
     (runSearches srv (srv.Search s req).2 rest).2)

/-! ## A small directory, used to run the definitions on concrete inputs -/

/-- A configuration for the example directory. -/
def exampleConfig : LDAPConfig :=
  { ServerHost := "ldap.example.com"
    ServerPort := 389
    EncryptionType := "starttls"
    BaseDN := "dc=example,dc=com"
    BindDN := "cn=admin,dc=example,dc=com"
    BindPassword := "adminpw"
    UserFilter := "(objectClass=person)"
    GroupFilter := "(cn=eng)"
    DefaultPermissionAddSpace := true
    AttributeUserRDN := "uid"
    AttributeUserFirstname := "givenName"
    AttributeUserLastname := "sn"
    AttributeUserEmail := "mail"
    AttributeUserDisplayName := "displayName"
    AttributeGroupMember := "member" }

/-- The example configuration with a service password the directory rejects. -/
def lockedOutConfig : LDAPConfig := { exampleConfig with BindPassword := "stale" }

/-- A person entry of the example directory. -/
def person (uid mail : String) : Entry :=
  { DN := "uid=" ++ uid ++ ",ou=people,dc=example,dc=com"
    Attributes := [⟨"uid", [uid]⟩, ⟨"mail", [mail]⟩, ⟨"givenName", ["Given"]⟩, ⟨"sn", ["Sur"]⟩] }

/-- The group `eng` of the example directory: two members that resolve, one whose lookup
fails and one that matches nothing. -/
def engGroup : Entry :=
  { DN := "cn=eng,ou=groups,dc=example,dc=com"
    Attributes := [⟨"member", ["uid=b,ou=people,dc=example,dc=com",
                               "uid=ghost,ou=people,dc=example,dc=com",
                               "uid=nobody,ou=people,dc=example,dc=com",
                               "uid=d,ou=people,dc=example,dc=com"]⟩] }

/-- Answers of the example directory to a search, by filter. -/
def exampleSearch (filter : String) : Except Error SearchResult :=
  if filter = "(objectClass=person)" then
    Except.ok ⟨[person "a" "a@x.com", person "b" "b@x.com", person "c" "c@x.com"]⟩
  else if filter = "(cn=eng)" then Except.ok ⟨[engGroup]⟩
  else if filter = "(uid=jdoe)" then Except.ok ⟨[person "jdoe" "jdoe@x.com"]⟩
  else if filter = "(uid=b)" then Except.ok ⟨[person "b" "b@x.com"]⟩
  else if filter = "(uid=d)" then Except.ok ⟨[person "d" "d@x.com"]⟩
  else if filter = "(uid=twin)" then
    Except.ok ⟨[person "twin" "twin@x.com", { person "twin" "twin2@x.com" with
      DN := "uid=twin,ou=contractors,dc=example,dc=com" }]⟩
  else if filter = "(uid=ghost)" then Except.error (Error.mk "LDAP Result Code 80")
  else Except.ok ⟨[]⟩

/-- Whether the example directory accepts a bind. -/
def exampleBind (username password : String) : GoError :=
  if (username = "cn=admin,dc=example,dc=com" ∧ password = "adminpw") ∨
      (username = "uid=jdoe,ou=people,dc=example,dc=com" ∧ password = "secret") then none
  else some (Error.mk "LDAP Result Code 49 Invalid Credentials")

/-- The example directory; its state counts the calls answered. -/
def exampleServer : Server Nat :=
  { Dial := fun n _ _ => (none, n + 1)
    StartTLS := fun n _ => (none, n + 1)
    Bind := fun n username password => (exampleBind username password, n + 1)
    Search := fun n req => (exampleSearch req.Filter, n + 1)
    Close := fun n => n + 1 }

/-- An entry whose email value has capitals and surrounding blanks, and that has a display
name but no first or last name. -/
def paddedEntry : Entry :=
  { DN := "uid=eve,ou=people,dc=example,dc=com"
    Attributes := [⟨"uid", ["eve"]⟩, ⟨"mail", [" Eve@X.com "]⟩, ⟨"displayName", ["Eve Adams"]⟩] }

/-- A decoder of request bodies that always yields the example configuration. -/
def exampleUnmarshal (_ : String) : Except Error LDAPConfig := Except.ok exampleConfig

/-- A directory like the example one, whose user search returns 150 entries and whose other
searches return none. -/
def crowdedServer : Server Nat :=
  { exampleServer with
    Search := fun n req =>
      (if req.Filter = "(objectClass=person)" then
          Except.ok
            ⟨(List.range 150).map (fun k => person (toString k) (toString k ++ "@x.com"))⟩
        else Except.ok ⟨[]⟩, n + 1) }

/-- A lower-case lookup for the examples: the Latin-1 capitals U+00C0..U+00DE (the
multiplication sign U+00D7 apart) are mapped to the rune 32 places up, as the Unicode tables
do, and every other rune is left unchanged. -/
def latin1Lower (r : Char) : Char :=
  if 192 ≤ r.toNat ∧ r.toNat ≤ 222 ∧ r.toNat ≠ 215 then Char.ofNat (r.toNat + 32) else r

/-- An entry whose email value has a capital outside ASCII. -/
def accentedEntry : Entry :=
  { DN := "uid=eve,ou=people,dc=example,dc=com"
    Attributes := [⟨"uid", ["eve"]⟩, ⟨"mail", ["ÉVE@X.COM"]⟩] }

/-- The network before any call. -/
def freshConn : Conn Nat := ⟨0, []⟩

/-- The attribute list requested for users in the examples. -/
def exampleUserAttributes (c : LDAPConfig) : List String :=
  [c.AttributeUserRDN, c.AttributeUserFirstname, c.AttributeUserLastname, c.AttributeUserEmail,
   c.AttributeUserDisplayName]

/-- The attribute list requested for groups in the examples. -/
def exampleGroupAttributes (c : LDAPConfig) : List String := [c.AttributeGroupMember]

/-- A directory user with that email, as a search mode would return it. -/
def userWithEmail (mail : String) : LDAPUser :=
  { RemoteID := "", CN := "", Email := mail, Firstname := "Given", Lastname := "Sur" }

/-- Initials of a first and last name, for the examples. -/
def exampleInitials (firstname lastname : String) : String :=
  String.mk (firstname.data.take 1 ++ lastname.data.take 1)


/-! ## Strings -/

theorem len_eq_zero_iff (s : String) : len s = 0 ↔ s = "" := by
  rcases s with ⟨cs⟩
  cases cs with
  | nil => simp [len, String.utf8ByteSize, String.utf8ByteSize.go]
  | cons ch rest =>
    have h := Char.utf8Size_pos ch
    simp only [len, String.utf8ByteSize, String.utf8ByteSize.go]
    constructor
    · intro h0; omega
    · intro h0; exact absurd (congrArg String.data h0) (by simp)

theorem len_pos_iff (s : String) : len s > 0 ↔ s ≠ "" := by
  rw [← not_iff_not, not_not, ← len_eq_zero_iff]; omega

theorem toLower_not_isUpper (ch : Char) : ch.toLower.isUpper = false := by
  unfold Char.toLower
  simp only []
  split
  · next h =>
    obtain ⟨h1, h2⟩ := h
    generalize ch.toNat = n at h1 h2
    interval_cases n <;> rfl
  · next h =>
    have hv : ¬ (ch.val ≥ 65 ∧ ch.val ≤ 90) := by
      intro ⟨a, b⟩
      apply h
      have a2 : (65 : UInt32).toNat ≤ ch.val.toNat := a
      have b2 : ch.val.toNat ≤ (90 : UInt32).toNat := b
      exact ⟨a2, b2⟩
    simp only [Char.isUpper]
    by_cases a : ch.val ≥ 65 <;> by_cases b : ch.val ≤ 90 <;> simp_all

/-! ## `convertUsers` -/

theorem convertStep_eq (MakeInitials : String → String → String) (c : LDAPConfig)
    (du : List User) (i : LDAPUser) :
    convertStep MakeInitials c du i =
      if i.Email ≠ "" then du ++ [toUser MakeInitials c i] else du := by
  unfold convertStep toUser
  by_cases h : i.Email = ""
  · have h0 : ¬ len i.Email > 0 := by rw [len_pos_iff]; simpa using h
    rw [if_neg (by simpa using h0), if_neg (by simpa using h)]
  · have h0 : len i.Email > 0 := by rw [len_pos_iff]; exact h
    rw [if_pos (by simpa using h0), if_pos h]

theorem foldl_convertStep (MakeInitials : String → String → String) (c : LDAPConfig)
    (lu : List LDAPUser) (du : List User) :
    lu.foldl (convertStep MakeInitials c) du =
      du ++ (lu.filter (fun i => decide (i.Email ≠ ""))).map (toUser MakeInitials c) := by
  induction lu generalizing du with
  | nil => simp
  | cons i rest ih =>
    rw [List.foldl_cons, ih, convertStep_eq]
    by_cases h : i.Email = "" <;> simp [h]

/-- What `convertUsers` computes: every user with a non-empty email is converted, in input
order; the email of earlier users plays no part. -/
theorem convertUsers_eq_filter_map (MakeInitials : String → String → String) (c : LDAPConfig)
    (lu : List LDAPUser) :
    convertUsers MakeInitials c lu =
      (lu.filter (fun i => decide (i.Email ≠ ""))).map (toUser MakeInitials c) := by
  unfold convertUsers
  rw [foldl_convertStep]; simp

/-- C1, evaluated on the scenario of the specification: user-mode emails a, b, c followed by
group-mode emails b, d. `convertUsers` returns five records, two of them with `b@x.com`, where
a list unique by email has four. -/
theorem convertUsers_scenario_keeps_duplicate :
    ∀ (MakeInitials : String → String → String) (c : LDAPConfig),
      (convertUsers MakeInitials c
          ([userWithEmail "a@x.com", userWithEmail "b@x.com", userWithEmail "c@x.com"] ++
            [userWithEmail "b@x.com", userWithEmail "d@x.com"])).map (fun du => du.Email)
        = ["a@x.com", "b@x.com", "c@x.com", "b@x.com", "d@x.com"] ∧
      (convertUsers MakeInitials c
          ([userWithEmail "a@x.com", userWithEmail "b@x.com", userWithEmail "c@x.com"] ++
            [userWithEmail "b@x.com", userWithEmail "d@x.com"])).length = 5 := by
  intro MakeInitials c
  exact ⟨rfl, rfl⟩

/-- C6, evaluated on two result lists that carry the same email: the output has as many
records as the two lists together, although the input emails are not pairwise distinct. -/
theorem convertUsers_length_sum_with_duplicate :
    ∀ (MakeInitials : String → String → String) (c : LDAPConfig),
      (convertUsers MakeInitials c
          ([userWithEmail "a@x.com"] ++ [userWithEmail "a@x.com"])).length
        = [userWithEmail "a@x.com"].length + [userWithEmail "a@x.com"].length ∧
      ¬ (([userWithEmail "a@x.com"] ++ [userWithEmail "a@x.com"]).map
          (fun i => i.Email)).Nodup := by
  intro MakeInitials c
  exact ⟨rfl, by decide⟩

/-! ## `authenticate` -/

/-- C2. `authenticate` returns `success = true` exactly when the service-account bind
succeeds, the search for `(RDN attribute = username)` then succeeds with exactly one entry,
and the bind with that entry's DN and the supplied password then succeeds; the error
returned with `success = true` is nil. -/
theorem authenticate_success_iff (srv : Server σ)
    (GetUserFilterAttributes : LDAPConfig → List String) (l : Conn σ) (c : LDAPConfig)
    (username pwd : String) :
    ((authenticate srv GetUserFilterAttributes l c username pwd).success = true ↔
      (srv.Bind l.state c.BindDN c.BindPassword).1 = none ∧
      ∃ e : Entry,
        (srv.Search (srv.Bind l.state c.BindDN c.BindPassword).2
          (authSearchRequest GetUserFilterAttributes c username)).1 = Except.ok ⟨[e]⟩ ∧
        (srv.Bind
          (srv.Search (srv.Bind l.state c.BindDN c.BindPassword).2
            (authSearchRequest GetUserFilterAttributes c username)).2 e.DN pwd).1 = none) ∧
    ((authenticate srv GetUserFilterAttributes l c username pwd).success = true →
      (authenticate srv GetUserFilterAttributes l c username pwd).err = none) := by
  unfold authenticate
  simp only [Conn.Bind, Conn.Search]
  cases hb : (srv.Bind l.state c.BindDN c.BindPassword).1 with
  | some e => simp
  | none =>
    simp only [true_and]
    cases hs : (srv.Search (srv.Bind l.state c.BindDN c.BindPassword).2
        (authSearchRequest GetUserFilterAttributes c username)).1 with
    | error e => simp
    | ok sr =>
      rcases sr with ⟨entries⟩
      match entries with
      | [] => simp [errors.Wrap]
      | [e] =>
        simp only [List.length_singleton, one_ne_zero, ↓reduceDIte, ne_eq, not_true_eq_false,
          ↓reduceIte, List.get_eq_getElem, List.getElem_cons_zero]
        cases hr : (srv.Bind (srv.Search (srv.Bind l.state c.BindDN c.BindPassword).2
            (authSearchRequest GetUserFilterAttributes c username)).2 e.DN pwd).1 with
        | some e2 => simp [hr]
        | none => simp [hr]
      | e1 :: e2 :: rest => simp [errors.Wrap]

/-- C2 on the example directory: `(uid=jdoe)` matches one entry and the bind with its DN and
the password `secret` succeeds, so `authenticate` returns `true` with a nil error. -/
theorem authenticate_success_iff_witness :
    (authenticate exampleServer exampleUserAttributes freshConn exampleConfig
        "jdoe" "secret").success = true ∧
    (authenticate exampleServer exampleUserAttributes freshConn exampleConfig
        "jdoe" "secret").err = none ∧
    (authenticate exampleServer exampleUserAttributes freshConn exampleConfig
        "jdoe" "wrong").success = false :=
  ⟨(authenticate_success_iff exampleServer exampleUserAttributes freshConn exampleConfig
        "jdoe" "secret").1.2 ⟨by decide, person "jdoe" "jdoe@x.com", rfl, by decide⟩,
   (authenticate_success_iff exampleServer exampleUserAttributes freshConn exampleConfig
        "jdoe" "secret").2 (by decide),
   by
    have h := (authenticate_success_iff exampleServer exampleUserAttributes freshConn
      exampleConfig "jdoe" "wrong").1
    cases hs : (authenticate exampleServer exampleUserAttributes freshConn exampleConfig
        "jdoe" "wrong").success with
    | false => rfl
    | true =>
      obtain ⟨_, e, he, hb⟩ := h.1 hs
      have he2 : e = person "jdoe" "jdoe@x.com" := by
        have h3 : (Except.ok ⟨[person "jdoe" "jdoe@x.com"]⟩ : Except Error SearchResult)
            = Except.ok ⟨[e]⟩ := he
        injection h3 with h4
        injection h4 with h5
        injection h5 with h6
        exact h6.symm
      subst he2
      exact absurd hb (by decide)⟩

/-- C3. When the service-account bind succeeds and the search returns two or more entries,
`authenticate` returns `success = false`, and the calls it issues on the connection are the
service-account bind and the search: no bind with the user's password is issued. -/
theorem authenticate_dupe_no_rebind (srv : Server σ)
    (GetUserFilterAttributes : LDAPConfig → List String) (l : Conn σ) (c : LDAPConfig)
    (username pwd : String) (sr : SearchResult)
    (hb : (srv.Bind l.state c.BindDN c.BindPassword).1 = none)
    (hs : (srv.Search (srv.Bind l.state c.BindDN c.BindPassword).2
        (authSearchRequest GetUserFilterAttributes c username)).1 = Except.ok sr)
    (h2 : 2 ≤ sr.Entries.length) :
    (authenticate srv GetUserFilterAttributes l c username pwd).success = false ∧
    (authenticate srv GetUserFilterAttributes l c username pwd).l.log =
      l.log ++ [Event.bind c.BindDN c.BindPassword none,
                Event.search (authSearchRequest GetUserFilterAttributes c username)
                  (Except.ok sr)] ∧
    ((authenticate srv GetUserFilterAttributes l c username pwd).l.log.drop
        l.log.length).filter Event.isBind = [Event.bind c.BindDN c.BindPassword none] := by
  have h0 : ¬ sr.Entries.length = 0 := by omega
  have h1 : ¬ sr.Entries.length = 1 := by omega
  unfold authenticate
  simp only [Conn.Bind, Conn.Search, hb, hs, h0, h1]
  simp [h1, Event.isBind]

/-- C3 on the example directory: `(uid=twin)` matches two entries. -/
theorem authenticate_dupe_no_rebind_witness :
    (authenticate exampleServer exampleUserAttributes freshConn exampleConfig
        "twin" "secret").success = false ∧
    (authenticate exampleServer exampleUserAttributes freshConn exampleConfig
        "twin" "secret").l.log.filter Event.isBind =
      [Event.bind "cn=admin,dc=example,dc=com" "adminpw" none] :=
  ⟨(authenticate_dupe_no_rebind exampleServer exampleUserAttributes freshConn exampleConfig
      "twin" "secret" _ (by decide) rfl (by decide)).1,
   (authenticate_dupe_no_rebind exampleServer exampleUserAttributes freshConn exampleConfig
      "twin" "secret" _ (by decide) rfl (by decide)).2.2⟩

/-- C4 refuted on the example directory. With a service password the directory rejects,
`authenticate` returns `false` with the bind error; with a wrong user password it returns
`false` with a nil error. The two results differ, and the first error is not nil. -/
theorem authenticate_directory_error_is_returned :
    (exampleServer.Bind freshConn.state lockedOutConfig.BindDN
        lockedOutConfig.BindPassword).1 ≠ none ∧
    (authenticate exampleServer exampleUserAttributes freshConn lockedOutConfig
        "jdoe" "secret").success = false ∧
    (authenticate exampleServer exampleUserAttributes freshConn lockedOutConfig
        "jdoe" "secret").err = some (Error.mk "LDAP Result Code 49 Invalid Credentials") ∧
    (authenticate exampleServer exampleUserAttributes freshConn exampleConfig
        "jdoe" "wrong").success = false ∧
    (authenticate exampleServer exampleUserAttributes freshConn exampleConfig
        "jdoe" "wrong").err = none ∧
    ¬ ((authenticate exampleServer exampleUserAttributes freshConn lockedOutConfig
          "jdoe" "secret").err = none ∧
       (authenticate exampleServer exampleUserAttributes freshConn exampleConfig
          "jdoe" "wrong").err = none) := by
  refine ⟨by decide, by decide, by decide, by decide, by decide, ?_⟩
  intro h
  exact absurd h.1 (by decide)

/-- C4 as amended. Every failure gives `success = false`, but the error returned depends on
the cause: a failed service-account bind returns the bind error, a failed search returns the
search error wrapped with a message, and a failed bind with the user's password returns a nil
error. -/
theorem authenticate_failure_results (srv : Server σ)
    (GetUserFilterAttributes : LDAPConfig → List String) (l : Conn σ) (c : LDAPConfig)
    (username pwd : String) :
    (∀ e : Error, (srv.Bind l.state c.BindDN c.BindPassword).1 = some e →
      (authenticate srv GetUserFilterAttributes l c username pwd).success = false ∧
      (authenticate srv GetUserFilterAttributes l c username pwd).err = some e) ∧
    (∀ e : Error, (srv.Bind l.state c.BindDN c.BindPassword).1 = none →
      (srv.Search (srv.Bind l.state c.BindDN c.BindPassword).2
        (authSearchRequest GetUserFilterAttributes c username)).1 = Except.error e →
      (authenticate srv GetUserFilterAttributes l c username pwd).success = false ∧
      (authenticate srv GetUserFilterAttributes l c username pwd).err =
        some (Error.wrapped e "unable to execute LDAP search during authentication")) ∧
    (∀ (entry : Entry) (e : Error), (srv.Bind l.state c.BindDN c.BindPassword).1 = none →
      (srv.Search (srv.Bind l.state c.BindDN c.BindPassword).2
        (authSearchRequest GetUserFilterAttributes c username)).1 = Except.ok ⟨[entry]⟩ →
      (srv.Bind
        (srv.Search (srv.Bind l.state c.BindDN c.BindPassword).2
          (authSearchRequest GetUserFilterAttributes c username)).2 entry.DN pwd).1 = some e →
      (authenticate srv GetUserFilterAttributes l c username pwd).success = false ∧
      (authenticate srv GetUserFilterAttributes l c username pwd).err = none) := by
  refine ⟨?_, ?_, ?_⟩
  · intro e hb
    unfold authenticate
    simp [Conn.Bind, hb]
  · intro e hb hs
    unfold authenticate
    simp [Conn.Bind, Conn.Search, hb, hs, errors.Wrap]
  · intro entry e hb hs hr
    unfold authenticate
    simp only [Conn.Bind, Conn.Search, hb, hs]
    simp [hr]

/-- C4 as amended, on the example directory: a rejected service password, a search that
fails (`(uid=ghost)`) and a wrong user password. -/
theorem authenticate_failure_results_witness :
    ((authenticate exampleServer exampleUserAttributes freshConn lockedOutConfig
        "jdoe" "secret").success = false ∧
     (authenticate exampleServer exampleUserAttributes freshConn lockedOutConfig
        "jdoe" "secret").err = some (Error.mk "LDAP Result Code 49 Invalid Credentials")) ∧
    ((authenticate exampleServer exampleUserAttributes freshConn exampleConfig
        "ghost" "secret").success = false ∧
     (authenticate exampleServer exampleUserAttributes freshConn exampleConfig
        "ghost" "secret").err =
      some (Error.wrapped (Error.mk "LDAP Result Code 80")
        "unable to execute LDAP search during authentication")) ∧
    ((authenticate exampleServer exampleUserAttributes freshConn exampleConfig
        "jdoe" "wrong").success = false ∧
     (authenticate exampleServer exampleUserAttributes freshConn exampleConfig
        "jdoe" "wrong").err = none) :=
  ⟨(authenticate_failure_results exampleServer exampleUserAttributes freshConn lockedOutConfig
      "jdoe" "secret").1 _ rfl,
   (authenticate_failure_results exampleServer exampleUserAttributes freshConn exampleConfig
      "ghost" "secret").2.1 _ (by decide) rfl,
   (authenticate_failure_results exampleServer exampleUserAttributes freshConn exampleConfig
      "jdoe" "wrong").2.2 (person "jdoe" "jdoe@x.com") _ (by decide) rfl rfl⟩

/-- When the service-account bind and the search succeed and the search returns no entry,
`authenticate` returns `false` with a nil error: `errors.Wrap` is applied to a nil error. -/
theorem authenticate_zero_entries (srv : Server σ)
    (GetUserFilterAttributes : LDAPConfig → List String) (l : Conn σ) (c : LDAPConfig)
    (username pwd : String)
    (hb : (srv.Bind l.state c.BindDN c.BindPassword).1 = none)
    (hs : (srv.Search (srv.Bind l.state c.BindDN c.BindPassword).2
        (authSearchRequest GetUserFilterAttributes c username)).1 = Except.ok ⟨[]⟩) :
    (authenticate srv GetUserFilterAttributes l c username pwd).success = false ∧
    (authenticate srv GetUserFilterAttributes l c username pwd).err = none := by
  unfold authenticate
  simp only [Conn.Bind, Conn.Search, hb, hs]
  simp [errors.Wrap]

/-- C5, evaluated on the example directory: the service-account bind and the search succeed,
`(uid=nobody)` matches no entry, and `authenticate` returns `false` with a nil error, not a
not-found error. -/
theorem authenticate_unknown_user_nil_error :
    (exampleServer.Bind freshConn.state exampleConfig.BindDN exampleConfig.BindPassword).1
      = none ∧
    (exampleServer.Search
        (exampleServer.Bind freshConn.state exampleConfig.BindDN exampleConfig.BindPassword).2
        (authSearchRequest exampleUserAttributes exampleConfig "nobody")).1 = Except.ok ⟨[]⟩ ∧
    (authenticate exampleServer exampleUserAttributes freshConn exampleConfig
        "nobody" "secret").success = false ∧
    (authenticate exampleServer exampleUserAttributes freshConn exampleConfig
        "nobody" "secret").err = none :=
  ⟨by decide, rfl, by decide, by decide⟩

/-! ## `executeGroupFilter` -/

theorem splitComma_eq_cons (cs : List Char) :
    ∃ ps, splitComma cs = cs.takeWhile (fun ch => decide (ch ≠ ',')) :: ps := by
  induction cs with
  | nil => exact ⟨[], rfl⟩
  | cons ch rest ih =>
    obtain ⟨ps, hps⟩ := ih
    by_cases h : ch = ','
    · exact ⟨splitComma rest, by simp [splitComma, h]⟩
    · exact ⟨ps, by simp [splitComma, h, hps]⟩

theorem SplitComma_eq_cons (s : String) :
    ∃ ps, strings.SplitComma s = firstComponent s :: ps := by
  obtain ⟨ps, hps⟩ := splitComma_eq_cons s.data
  exact ⟨ps.map String.mk, by simp [strings.SplitComma, firstComponent, hps]⟩

theorem appendExtracted_eq (lowerCase : Char → Char) (c : LDAPConfig) (u : List LDAPUser)
    (entries : List Entry) :
    appendExtracted lowerCase c u entries = u ++ entries.map (extractUser lowerCase c) := by
  unfold appendExtracted
  induction entries generalizing u with
  | nil => simp
  | cons e rest ih => simp [ih]

theorem runSearches_length (srv : Server σ) (s : σ) (reqs : List SearchRequest) :
    (runSearches srv s reqs).1.length = reqs.length := by
  induction reqs generalizing s with
  | nil => rfl
  | cons req rest ih => simp [runSearches, ih]

theorem runSearches_append (srv : Server σ) (s : σ) (r1 r2 : List SearchRequest) :
    runSearches srv s (r1 ++ r2) =
      ((runSearches srv s r1).1 ++ (runSearches srv (runSearches srv s r1).2 r2).1,
       (runSearches srv (runSearches srv s r1).2 r2).2) := by
  induction r1 generalizing s with
  | nil => simp [runSearches]
  | cons req rest ih => simp [runSearches, ih]

theorem memberLoop_eq (lowerCase : Char → Char) (srv : Server σ)
    (GetUserFilterAttributes : LDAPConfig → List String)
    (c : LDAPConfig) (members : List String) (l : Conn σ) (u : List LDAPUser) :
    memberLoop lowerCase srv GetUserFilterAttributes c members l u =
      (⟨(runSearches srv l.state (members.map (fun m =>
            memberSearchRequest GetUserFilterAttributes c (firstComponent m)))).2,
        l.log ++ List.zipWith Event.search
          (members.map (fun m =>
            memberSearchRequest GetUserFilterAttributes c (firstComponent m)))
          (runSearches srv l.state (members.map (fun m =>
            memberSearchRequest GetUserFilterAttributes c (firstComponent m)))).1⟩,
       u ++ (runSearches srv l.state (members.map (fun m =>
            memberSearchRequest GetUserFilterAttributes c (firstComponent m)))).1.flatMap
          (usersOfAnswer lowerCase c)) := by
  induction members generalizing l u with
  | nil => simp [memberLoop, runSearches]
  | cons m rest ih =>
    obtain ⟨ps, hps⟩ := SplitComma_eq_cons m
    unfold memberLoop
    simp only [hps, Conn.Search, List.map_cons, runSearches]
    cases hs : (srv.Search l.state
        (memberSearchRequest GetUserFilterAttributes c (firstComponent m))).1 with
    | error e =>
      simp only [ih]
      simp [hs, usersOfAnswer]
    | ok ue =>
      by_cases hlen : ue.Entries.length > 0
      · simp only [hlen, if_true, ih, appendExtracted_eq]
        simp [hs, usersOfAnswer]
      · have hnil : ue.Entries = [] := by
          cases hE : ue.Entries with
          | nil => rfl
          | cons a b => simp [hE] at hlen
        simp only [hlen, if_false, ih]
        simp [hs, usersOfAnswer, hnil]

theorem groupLoop_eq (lowerCase : Char → Char) (srv : Server σ)
    (GetUserFilterAttributes : LDAPConfig → List String)
    (c : LDAPConfig) (groups : List Entry) (l : Conn σ) (u : List LDAPUser) :
    groupLoop lowerCase srv GetUserFilterAttributes c groups l u =
      (⟨(runSearches srv l.state (memberRequests GetUserFilterAttributes c groups)).2,
        l.log ++ List.zipWith Event.search (memberRequests GetUserFilterAttributes c groups)
          (runSearches srv l.state (memberRequests GetUserFilterAttributes c groups)).1⟩,
       u ++ (runSearches srv l.state (memberRequests GetUserFilterAttributes c groups)).1.flatMap
          (usersOfAnswer lowerCase c)) := by
  induction groups generalizing l u with
  | nil => simp [groupLoop, memberRequests, memberDNs, runSearches]
  | cons g rest ih =>
    unfold groupLoop
    by_cases h0 : (g.GetAttributeValues c.AttributeGroupMember).length = 0
    · have hnil : g.GetAttributeValues c.AttributeGroupMember = [] := by
        simpa using h0
      simp only [h0, if_true, ih]
      simp [memberRequests, memberDNs, hnil]
    · simp only [h0, if_false, ih, memberLoop_eq]
      have hreq : memberRequests GetUserFilterAttributes c (g :: rest) =
          (g.GetAttributeValues c.AttributeGroupMember).map (fun m =>
            memberSearchRequest GetUserFilterAttributes c (firstComponent m)) ++
          memberRequests GetUserFilterAttributes c rest := by
        simp [memberRequests, memberDNs]
      rw [hreq, runSearches_append]
      simp only [List.append_assoc, List.flatMap_append]
      rw [List.zipWith_append _ _ _ _ _ (by rw [runSearches_length])]

/-- C7. After a successful `connect`, service-account bind and group search,
`executeGroupFilter` returns a nil error; it issues one secondary search per member DN, in
group order then member order, whatever the earlier ones answered; and the list returned is
the concatenation, in that order, of the `extractUser` images of the entries of the answers
that succeeded. A search that fails or returns no entry contributes nothing. -/
theorem executeGroupFilter_expansion (lowerCase : Char → Char) (srv : Server σ)
    (GetUserFilterAttributes GetGroupFilterAttributes : LDAPConfig → List String)
    (w : Conn σ) (c : LDAPConfig) (sr : SearchResult)
    (hc : (connect srv w c).err = none)
    (hb : (srv.Bind (connect srv w c).l.state c.BindDN c.BindPassword).1 = none)
    (hs : (srv.Search (srv.Bind (connect srv w c).l.state c.BindDN c.BindPassword).2
        (groupSearchRequest GetGroupFilterAttributes c)).1 = Except.ok sr) :
    (executeGroupFilter lowerCase srv GetUserFilterAttributes GetGroupFilterAttributes w c).err = none ∧
    (executeGroupFilter lowerCase srv GetUserFilterAttributes GetGroupFilterAttributes w c).u =
      (runSearches srv
        (srv.Search (srv.Bind (connect srv w c).l.state c.BindDN c.BindPassword).2
          (groupSearchRequest GetGroupFilterAttributes c)).2
        (memberRequests GetUserFilterAttributes c sr.Entries)).1.flatMap (usersOfAnswer lowerCase c) ∧
    (executeGroupFilter lowerCase srv GetUserFilterAttributes GetGroupFilterAttributes w c).w.log =
      (connect srv w c).l.log ++
        [Event.bind c.BindDN c.BindPassword none,
         Event.search (groupSearchRequest GetGroupFilterAttributes c) (Except.ok sr)] ++
        List.zipWith Event.search (memberRequests GetUserFilterAttributes c sr.Entries)
          (runSearches srv
            (srv.Search (srv.Bind (connect srv w c).l.state c.BindDN c.BindPassword).2
              (groupSearchRequest GetGroupFilterAttributes c)).2
            (memberRequests GetUserFilterAttributes c sr.Entries)).1 ++
        [Event.close] := by
  unfold executeGroupFilter
  rcases hcr : connect srv w c with ⟨l0, err0⟩
  rw [hcr] at hc hb hs
  simp only at hc hb hs
  subst hc
  simp only [Conn.Bind, Conn.Search, hb, hs, groupLoop_eq, Conn.Close]
  simp

/-- C7 on the example directory: group `eng` has four members; the lookup of `ghost` fails and
the lookup of `nobody` matches nothing, and the members `b` and `d` are returned. -/
theorem executeGroupFilter_expansion_witness :
    (runSearches exampleServer 4
        (memberRequests exampleUserAttributes exampleConfig [engGroup])).1 =
      [Except.ok ⟨[person "b" "b@x.com"]⟩, Except.error (Error.mk "LDAP Result Code 80"),
       Except.ok ⟨[]⟩, Except.ok ⟨[person "d" "d@x.com"]⟩] ∧
    (executeGroupFilter latin1Lower exampleServer exampleUserAttributes exampleGroupAttributes freshConn
        exampleConfig).err = none ∧
    (executeGroupFilter latin1Lower exampleServer exampleUserAttributes exampleGroupAttributes freshConn
        exampleConfig).u =
      [extractUser latin1Lower exampleConfig (person "b" "b@x.com"),
       extractUser latin1Lower exampleConfig (person "d" "d@x.com")] :=
  ⟨rfl,
   (executeGroupFilter_expansion latin1Lower exampleServer exampleUserAttributes exampleGroupAttributes
      freshConn exampleConfig ⟨[engGroup]⟩ (by decide) (by decide) rfl).1,
   (executeGroupFilter_expansion latin1Lower exampleServer exampleUserAttributes exampleGroupAttributes
      freshConn exampleConfig ⟨[engGroup]⟩ (by decide) (by decide) rfl).2.1.trans rfl⟩

/-! ## `Preview` -/

/-- C8. When the caller is an administrator, the body is read and decoded, and `fetchUsers`
returns without error, `Preview` writes a result whose `Users` field is the first
`min 100 n` users of the list `fetchUsers` returned, in the same order; it has at most 100
users and is the whole list when `n ≤ 100`. -/
theorem Preview_users_cap (lowerCase : Char → Char) (srv : Server σ)
    (GetUserFilterAttributes GetGroupFilterAttributes : LDAPConfig → List String)
    (MakeInitials : String → String → String) (Unmarshal : String → Except Error LDAPConfig)
    (body : String) (w : Conn σ) (c : LDAPConfig)
    (hu : Unmarshal body = Except.ok c)
    (hf : (fetchUsers lowerCase srv GetUserFilterAttributes GetGroupFilterAttributes MakeInitials
        w c).err = none) :
    (Preview lowerCase srv GetUserFilterAttributes GetGroupFilterAttributes MakeInitials Unmarshal true
        (Except.ok body) w).1 =
      Response.json
        { Message := "Sync\x27ed with LDAP, found " ++
            toString (fetchUsers lowerCase srv GetUserFilterAttributes GetGroupFilterAttributes
              MakeInitials w c).du.length ++ " users"
          IsError := false
          Users := (fetchUsers lowerCase srv GetUserFilterAttributes GetGroupFilterAttributes
              MakeInitials w c).du.take
            (min 100 (fetchUsers lowerCase srv GetUserFilterAttributes GetGroupFilterAttributes
              MakeInitials w c).du.length) } ∧
    ((fetchUsers lowerCase srv GetUserFilterAttributes GetGroupFilterAttributes MakeInitials
        w c).du.take
      (min 100 (fetchUsers lowerCase srv GetUserFilterAttributes GetGroupFilterAttributes
        MakeInitials w c).du.length)).length ≤ 100 ∧
    ((fetchUsers lowerCase srv GetUserFilterAttributes GetGroupFilterAttributes MakeInitials
        w c).du.length ≤ 100 →
      (fetchUsers lowerCase srv GetUserFilterAttributes GetGroupFilterAttributes MakeInitials
          w c).du.take
        (min 100 (fetchUsers lowerCase srv GetUserFilterAttributes GetGroupFilterAttributes
          MakeInitials w c).du.length) =
      (fetchUsers lowerCase srv GetUserFilterAttributes GetGroupFilterAttributes MakeInitials
        w c).du) := by
  unfold Preview
  rcases hfr : fetchUsers lowerCase srv GetUserFilterAttributes GetGroupFilterAttributes MakeInitials
    w c with ⟨du, err, w2⟩
  rw [hfr] at hf
  simp only at hf
  subst hf
  simp only [hu, Bool.not_true, Bool.false_eq_true, if_false, not_true_eq_false]
  refine ⟨?_, ?_, ?_⟩
  · by_cases h : du.length > 100
    · have hm : min 100 du.length = 100 := by omega
      simp [hfr, h, hm]
    · have hm : min 100 du.length = du.length := by omega
      simp [hfr, h, hm]
  · simp
  · intro h
    have hm : min 100 du.length = du.length := by omega
    simp [hm]

set_option maxRecDepth 100000 in
/-- C8 on the example directory, where five users are fetched and all five are written, and
on a directory with 150 users, where the first 100 are written. -/
theorem Preview_users_cap_witness :
    ((fetchUsers latin1Lower exampleServer exampleUserAttributes exampleGroupAttributes exampleInitials
        freshConn exampleConfig).du.length = 5 ∧
     (Preview latin1Lower exampleServer exampleUserAttributes exampleGroupAttributes exampleInitials
        exampleUnmarshal true (Except.ok "") freshConn).1 =
      Response.json
        { Message := "Sync\x27ed with LDAP, found 5 users"
          IsError := false
          Users := (fetchUsers latin1Lower exampleServer exampleUserAttributes exampleGroupAttributes
            exampleInitials freshConn exampleConfig).du }) ∧
    ((fetchUsers latin1Lower crowdedServer exampleUserAttributes exampleGroupAttributes exampleInitials
        freshConn exampleConfig).du.length = 150 ∧
     (Preview latin1Lower crowdedServer exampleUserAttributes exampleGroupAttributes exampleInitials
        exampleUnmarshal true (Except.ok "") freshConn).1 =
      Response.json
        { Message := "Sync\x27ed with LDAP, found 150 users"
          IsError := false
          Users := (fetchUsers latin1Lower crowdedServer exampleUserAttributes exampleGroupAttributes
            exampleInitials freshConn exampleConfig).du.take 100 }) :=
  ⟨⟨by decide,
    (Preview_users_cap latin1Lower exampleServer exampleUserAttributes exampleGroupAttributes
      exampleInitials exampleUnmarshal "" freshConn exampleConfig rfl (by decide)).1.trans
      rfl⟩,
   ⟨by decide,
    (Preview_users_cap latin1Lower crowdedServer exampleUserAttributes exampleGroupAttributes
      exampleInitials exampleUnmarshal "" freshConn exampleConfig rfl (by decide)).1.trans
      rfl⟩⟩

/-! ## `extractUser` -/

theorem unicode_ToLower_of_ascii (lowerCase : Char → Char) (r : Char)
    (h : r.toNat ≤ unicode.MaxASCII) : unicode.ToLower lowerCase r = r.toLower := by
  unfold unicode.ToLower
  rw [if_pos h]

theorem char_toLower_toLower (r : Char) : r.toLower.toLower = r.toLower := by
  by_cases h : r.toNat ≥ 65 ∧ r.toNat ≤ 90
  · have hr : r.toLower = Char.ofNat (r.toNat + 32) := by simp [Char.toLower, h]
    rw [hr]
    obtain ⟨h1, h2⟩ := h
    generalize r.toNat = n at h1 h2
    interval_cases n <;> rfl
  · have hr : r.toLower = r := by simp only [Char.toLower, if_neg h]
    rw [hr, hr]

theorem char_toLower_ascii (r : Char) (h : r.toNat ≤ unicode.MaxASCII) :
    r.toLower.toNat ≤ unicode.MaxASCII := by
  by_cases h2 : r.toNat ≥ 65 ∧ r.toNat ≤ 90
  · have hr : r.toLower = Char.ofNat (r.toNat + 32) := by simp [Char.toLower, h2]
    rw [hr]
    obtain ⟨h1, h3⟩ := h2
    generalize r.toNat = n at h1 h3
    interval_cases n <;> decide
  · have hr : r.toLower = r := by simp only [Char.toLower, if_neg h2]
    rw [hr]
    exact h

/-- Lower-casing with the example lookup changes nothing in a rune already lower-cased. -/
theorem unicode_ToLower_latin1Lower_idem (r : Char) :
    unicode.ToLower latin1Lower (unicode.ToLower latin1Lower r) =
      unicode.ToLower latin1Lower r := by
  by_cases h : r.toNat ≤ unicode.MaxASCII
  · rw [unicode_ToLower_of_ascii _ r h,
      unicode_ToLower_of_ascii _ _ (char_toLower_ascii r h), char_toLower_toLower]
  · have hu : unicode.ToLower latin1Lower r = latin1Lower r := by
      unfold unicode.ToLower
      rw [if_neg h]
    rw [hu]
    by_cases hl : 192 ≤ r.toNat ∧ r.toNat ≤ 222 ∧ r.toNat ≠ 215
    · have hr : latin1Lower r = Char.ofNat (r.toNat + 32) := by
        unfold latin1Lower
        rw [if_pos hl]
      rw [hr]
      obtain ⟨h1, h2, h3⟩ := hl
      generalize r.toNat = n at h1 h2 h3
      interval_cases n <;> rfl
    · have hr : latin1Lower r = r := by
        unfold latin1Lower
        rw [if_neg hl]
      rw [hr, hu, hr]

/-- C9 refuted on an entry whose email value is `" Eve@X.com "`: the email of the extracted
user is `" eve@x.com "`, which starts and ends with a blank. Nothing is trimmed. The value has
ASCII runes only, so the case tables play no part. -/
theorem extractUser_email_keeps_blanks :
    paddedEntry.GetAttributeValue exampleConfig.AttributeUserEmail = " Eve@X.com " ∧
    (extractUser latin1Lower exampleConfig paddedEntry).Email = " eve@x.com " ∧
    (extractUser latin1Lower exampleConfig paddedEntry).Email.data.head? = some ' ' ∧
    (extractUser latin1Lower exampleConfig paddedEntry).Email.data.getLast? = some ' ' := by
  decide

/-- C9 as amended. The email of the extracted user is the value of the configured email
attribute with every rune lower-cased by `unicode.ToLower` and nothing trimmed: it has as many
runes as the attribute value, blanks included. It contains no upper-case letter, that is no
rune that lower-casing would still change, lower-casing a lower-cased rune being without
effect; and when the value has ASCII runes only, it contains no letter `A`..`Z`, whatever the
case tables. -/
theorem extractUser_email_lowercased (lowerCase : Char → Char) (c : LDAPConfig) (e : Entry) :
    (extractUser lowerCase c e).Email =
      strings.ToLower lowerCase (e.GetAttributeValue c.AttributeUserEmail) ∧
    (extractUser lowerCase c e).Email.data =
      (e.GetAttributeValue c.AttributeUserEmail).data.map (unicode.ToLower lowerCase) ∧
    (extractUser lowerCase c e).Email.data.length =
      (e.GetAttributeValue c.AttributeUserEmail).data.length ∧
    ((∀ r : Char, unicode.ToLower lowerCase (unicode.ToLower lowerCase r) =
        unicode.ToLower lowerCase r) →
      ∀ ch ∈ (extractUser lowerCase c e).Email.data, unicode.ToLower lowerCase ch = ch) ∧
    ((e.GetAttributeValue c.AttributeUserEmail).data.all
        (fun ch => decide (ch.toNat ≤ unicode.MaxASCII)) = true →
      (extractUser lowerCase c e).Email.data.all (fun ch => !ch.isUpper) = true) := by
  have hE : (extractUser lowerCase c e).Email =
      strings.ToLower lowerCase (e.GetAttributeValue c.AttributeUserEmail) := by
    unfold extractUser
    simp only
    split_ifs <;> rfl
  rw [hE]
  refine ⟨rfl, rfl, ?_, ?_, ?_⟩
  · simp [strings.ToLower]
  · intro hidem ch hch
    simp only [strings.ToLower, List.mem_map] at hch
    obtain ⟨r, _, rfl⟩ := hch
    exact hidem r
  · intro hascii
    simp only [strings.ToLower, List.all_eq_true, List.mem_map] at hascii ⊢
    rintro ch ⟨r, hr, rfl⟩
    have h127 : r.toNat ≤ unicode.MaxASCII := by simpa using hascii r hr
    rw [unicode_ToLower_of_ascii _ r h127, toLower_not_isUpper]
    rfl

/-- C9 as amended, with the example lookup: `"ÉVE@X.COM"` gives `"éve@x.com"`, in which no
rune is changed by lower-casing again, and `" Eve@X.com "`, of ASCII runes, gives an email
without a letter `A`..`Z`. -/
theorem extractUser_email_lowercased_witness :
    (extractUser latin1Lower exampleConfig accentedEntry).Email = "éve@x.com" ∧
    (∀ ch ∈ (extractUser latin1Lower exampleConfig accentedEntry).Email.data,
      unicode.ToLower latin1Lower ch = ch) ∧
    (extractUser latin1Lower exampleConfig paddedEntry).Email.data.all
      (fun ch => !ch.isUpper) = true :=
  ⟨(extractUser_email_lowercased latin1Lower exampleConfig accentedEntry).1.trans
      (by decide),
   (extractUser_email_lowercased latin1Lower exampleConfig accentedEntry).2.2.2.1
      unicode_ToLower_latin1Lower_idem,
   (extractUser_email_lowercased latin1Lower exampleConfig paddedEntry).2.2.2.2
      (by decide)⟩

/-- C10. The first and last name of the extracted user are never empty: each is the value of
the mapped attribute when that value is not empty and `"Empty"` when it is empty, which is the
case when the entry has no such attribute. The display-name attribute plays no part. -/
theorem extractUser_names_never_empty (lowerCase : Char → Char) (c : LDAPConfig)
    (e : Entry) :
    len (extractUser lowerCase c e).Firstname > 0 ∧
    len (extractUser lowerCase c e).Lastname > 0 ∧
    (extractUser lowerCase c e).Firstname =
      (if e.GetAttributeValue c.AttributeUserFirstname = "" then "Empty"
       else e.GetAttributeValue c.AttributeUserFirstname) ∧
    (extractUser lowerCase c e).Lastname =
      (if e.GetAttributeValue c.AttributeUserLastname = "" then "Empty"
       else e.GetAttributeValue c.AttributeUserLastname) ∧
    ((∀ a ∈ e.Attributes, a.Name ≠ c.AttributeUserFirstname) →
      (extractUser lowerCase c e).Firstname = "Empty") ∧
    ((∀ a ∈ e.Attributes, a.Name ≠ c.AttributeUserLastname) →
      (extractUser lowerCase c e).Lastname = "Empty") := by
  have absent : ∀ name : String, (∀ a ∈ e.Attributes, a.Name ≠ name) →
      e.GetAttributeValue name = "" := by
    intro name h
    have hfind : e.Attributes.find? (fun attr => attr.Name == name) = none := by
      rw [List.find?_eq_none]
      intro a ha
      simpa using h a ha
    simp [Entry.GetAttributeValue, Entry.GetAttributeValues, hfind]
  have hF : (extractUser lowerCase c e).Firstname =
      (if e.GetAttributeValue c.AttributeUserFirstname = "" then "Empty"
       else e.GetAttributeValue c.AttributeUserFirstname) := by
    unfold extractUser
    simp only [len_eq_zero_iff]
    split_ifs <;> simp_all
  have hL : (extractUser lowerCase c e).Lastname =
      (if e.GetAttributeValue c.AttributeUserLastname = "" then "Empty"
       else e.GetAttributeValue c.AttributeUserLastname) := by
    unfold extractUser
    simp only [len_eq_zero_iff]
    split_ifs <;> simp_all
  refine ⟨?_, ?_, hF, hL, ?_, ?_⟩
  · rw [len_pos_iff, hF]
    split_ifs with h
    · decide
    · exact h
  · rw [len_pos_iff, hL]
    split_ifs with h
    · decide
    · exact h
  · intro h
    rw [hF, if_pos (absent _ h)]
  · intro h
    rw [hL, if_pos (absent _ h)]

/-- C10 on the example directory: an entry with a display name but no first or last name gets
`"Empty"` for both, and an entry with both names keeps them. -/
theorem extractUser_names_never_empty_witness :
    ((extractUser latin1Lower exampleConfig paddedEntry).Firstname = "Empty" ∧
     (extractUser latin1Lower exampleConfig paddedEntry).Lastname = "Empty") ∧
    ((extractUser latin1Lower exampleConfig (person "a" "a@x.com")).Firstname = "Given" ∧
     (extractUser latin1Lower exampleConfig (person "a" "a@x.com")).Lastname = "Sur") :=
  ⟨⟨(extractUser_names_never_empty latin1Lower exampleConfig paddedEntry).2.2.2.2.1 (by decide),
    (extractUser_names_never_empty latin1Lower exampleConfig paddedEntry).2.2.2.2.2 (by decide)⟩,
   ⟨(extractUser_names_never_empty latin1Lower exampleConfig (person "a" "a@x.com")).2.2.1.trans
      (by decide),
    (extractUser_names_never_empty latin1Lower exampleConfig (person "a" "a@x.com")).2.2.2.1.trans
      (by decide)⟩⟩

/-! ## `convertUsers`: empty emails -/

theorem dupeScan_of_empty_email (i : LDAPUser) (du : List User) (h : i.Email = "") :
    dupeScan i du = true := by
  induction du with
  | nil => rfl
  | cons j rest ih =>
    unfold dupeScan
    have hj : ¬ (len j.Email > 0 ∧ i.Email = j.Email) := by
      intro ⟨hpos, heq⟩
      rw [len_pos_iff] at hpos
      exact hpos (heq.symm.trans h)
    rw [if_neg hj]
    exact ih

/-- C11. No record returned by `convertUsers` has an empty email; the emails returned are the
non-empty emails of the input, in input order, so every input entry with an empty email is
dropped. Such an entry is dropped by the test on its own email: the duplicate scan never
matches it against a collected user, and the iteration leaves the collected list as it
is. -/
theorem convertUsers_no_empty_email (MakeInitials : String → String → String)
    (c : LDAPConfig) (lu : List LDAPUser) :
    (∀ du ∈ convertUsers MakeInitials c lu, len du.Email > 0) ∧
    (convertUsers MakeInitials c lu).map (fun du => du.Email) =
      (lu.map (fun i => i.Email)).filter (fun m => decide (m ≠ "")) ∧
    (convertUsers MakeInitials c lu).length =
      (lu.filter (fun i => decide (len i.Email > 0))).length ∧
    (∀ (i : LDAPUser) (du : List User), i.Email = "" →
      dupeScan i du = true ∧ convertStep MakeInitials c du i = du) := by
  refine ⟨?_, ?_, ?_, ?_⟩
  · intro du hdu
    rw [convertUsers_eq_filter_map] at hdu
    obtain ⟨i, hi, rfl⟩ := List.mem_map.1 hdu
    have hne : i.Email ≠ "" := by simpa using (List.mem_filter.1 hi).2
    rw [len_pos_iff]
    exact hne
  · rw [convertUsers_eq_filter_map]
    induction lu with
    | nil => rfl
    | cons i rest ih =>
      by_cases h : i.Email = ""
      · simpa [List.filter_cons, h] using ih
      · simpa [List.filter_cons, h, toUser] using ih
  · rw [convertUsers_eq_filter_map, List.length_map]
    congr 1
    apply List.filter_congr
    intro i _
    by_cases h : i.Email = ""
    · have h0 : ¬ len i.Email > 0 := by rw [len_pos_iff]; simpa using h
      rw [decide_eq_false h0, decide_eq_false (by simpa using h)]
    · have h0 : len i.Email > 0 := by rw [len_pos_iff]; exact h
      rw [decide_eq_true h0, decide_eq_true h]
  · intro i du h
    refine ⟨dupeScan_of_empty_email i du h, ?_⟩
    rw [convertStep_eq, if_neg (by simpa using h)]

/-- C11 on a list with two entries without email between two entries with one: the two are
dropped, also the second one, and the two others are returned. -/
theorem convertUsers_no_empty_email_witness :
    (convertUsers exampleInitials exampleConfig
        [userWithEmail "a@x.com", userWithEmail "", userWithEmail "",
         userWithEmail "b@x.com"]).map (fun du => du.Email) = ["a@x.com", "b@x.com"] ∧
    len (toUser exampleInitials exampleConfig (userWithEmail "a@x.com")).Email > 0 ∧
    (dupeScan (userWithEmail "") [] = true ∧
      convertStep exampleInitials exampleConfig [] (userWithEmail "") = []) :=
  ⟨(convertUsers_no_empty_email exampleInitials exampleConfig
      [userWithEmail "a@x.com", userWithEmail "", userWithEmail "",
       userWithEmail "b@x.com"]).2.1.trans (by decide),
   (convertUsers_no_empty_email exampleInitials exampleConfig
      [userWithEmail "a@x.com", userWithEmail "", userWithEmail "",
       userWithEmail "b@x.com"]).1 _ (by decide),
   (convertUsers_no_empty_email exampleInitials exampleConfig []).2.2.2
      (userWithEmail "") [] rfl⟩

end Ldap
